import Mathlib

/-!
Verification development for the Interplay MVE decoder
(`video/mve_decoder.cpp`).  The decoder's data model and operations are
embedded shallowly: byte buffers are lists of naturals (each entry a byte),
surfaces are total functions from pixel coordinates to pixel values, and the
per-opcode state machine of `MveDecoder::readNextPacket` is a step function
over an explicit decoder state.  C assertions and the fatal `error(...)` call
are modelled as values of an error type, following the spec's error taxonomy
(spec section 7: assertions in the reference code correspond to stream
invariants and are surfaced as errors).
-/

set_option maxHeartbeats 1000000

namespace MveDec

/-- Bytes are modelled as naturals; `byteAt` reads one byte of a buffer,
yielding 0 past the end, and normalises to the byte range. -/
def byteAt (l : List Nat) (p : Nat) : Nat := l.getD p 0 % 256

/-- Little-endian 16-bit read (`readUint16LE`). -/
def readU16LE (l : List Nat) (p : Nat) : Nat := byteAt l p + 256 * byteAt l (p + 1)

/-- Big-endian 16-bit read (`readUint16BE`, used only for opcode tags,
mve_decoder.cpp:251). -/
def readU16BE (l : List Nat) (p : Nat) : Nat := 256 * byteAt l p + byteAt l (p + 1)

/-- Little-endian 32-bit read (`readUint32LE`). -/
def readU32LE (l : List Nat) (p : Nat) : Nat :=
  byteAt l p + 256 * byteAt l (p + 1) + 65536 * byteAt l (p + 2) + 16777216 * byteAt l (p + 3)

/-- Modelled from the spec: `Common::MemoryReadStream` is declared outside this
repository file; per spec sections 4.1/7, a 16-bit read from an exhausted map
stream is a `MapExhausted` stream error rather than silent data.  Used by the
format-10 decoder, whose decoding-map stream is bounded by the buffered map's
size (mve_decoder.cpp:180). -/
def readU16LEOpt (l : List Nat) (p : Nat) : Option Nat :=
  if p + 2 ≤ l.length then some (readU16LE l p) else none

/-- Error taxonomy of the spec (section 7); `assertFailed` stands for the C
`assert` calls the spec maps to `Truncated`/framing errors. -/
inductive MveError where
  | invalidSignature
  | unknownOpcode
  | badConfiguration
  | mapExhausted
  | assertFailed
  deriving DecidableEq

/-- A paletted surface: pixel value at signed planar coordinates.  Coordinates
are total so that the pointer arithmetic of offsetted block reads (which may
leave the nominal bounds) stays expressible. -/
abbrev Surface := Int → Int → Nat

/-- X pixel coordinate of the anchor of block `block`
(`(block % _widthInBlocks) * 8`, mve_decoder.cpp:96,108). -/
def blockX (w block : Nat) : Int := ((block % w) * 8 : Nat)

/-- Y pixel coordinate of the anchor of block `block`
(`(block / _widthInBlocks) * 8`, mve_decoder.cpp:97,109). -/
def blockY (w block : Nat) : Int := ((block / w) * 8 : Nat)

/-- `MveDecoder::copyBlock(dst, src, block, offset)` (mve_decoder.cpp:107-122):
copies the 8x8 region of `src` whose top-left is the block anchor displaced by
`(offset % _width, offset / _width)` (C truncated division, `Int.tmod` and
`Int.tdiv`) onto the block anchor of `dst`.  `dst` and `src` are distinct
surfaces here; the aliased self-copy is `copyBlockSelf`. -/
def copyBlock (w : Nat) (dst src : Surface) (block : Nat) (offset : Int) : Surface :=
  let dx := blockX w block
  let dy := blockY w block
  let sx := dx + offset.tmod ((8 * w : Nat))
  let sy := dy + offset.tdiv ((8 * w : Nat))
  fun x y =>
    if dx ≤ x ∧ x < dx + 8 ∧ dy ≤ y ∧ y < dy + 8 then
      src (sx + (x - dx)) (sy + (y - dy))
    else dst x y

/-- One row of the aliased self-copy: the 8 bytes of row `dy` starting at `dx`
are replaced by the bytes of row `sy` starting at `sx`, read from the current
surface (`memmove` copies one row as if through a temporary). -/
def copyRowSelf (s : Surface) (dx sx dy sy : Int) : Surface :=
  fun x y =>
    if y = dy ∧ dx ≤ x ∧ x < dx + 8 then s (sx + (x - dx)) sy else s x y

/-- `MveDecoder::copyBlock(dst, src, block, offset)` when `dst` and `src` are
the same surface (`copyBlock(_frameSurface, _frameSurface, b, offset)`,
mve_decoder.cpp:171, and the MSB-clear case of format 10, mve_decoder.cpp:201-203):
rows are copied one at a time, so a later row may read pixels written by an
earlier row of the same call. -/
def copyBlockSelf (w : Nat) (s : Surface) (block : Nat) (offset : Int) : Surface :=
  let dx := blockX w block
  let dy := blockY w block
  let sx := dx + offset.tmod ((8 * w : Nat))
  let sy := dy + offset.tdiv ((8 * w : Nat))
  (List.range 8).foldl (fun t i => copyRowSelf t dx sx (dy + (i : Int)) (sy + (i : Int))) s

/-- `MveDecoder::copyBlock(dst, stream, block)` (mve_decoder.cpp:95-105): reads
8 rows of 8 bytes from the literal stream at cursor `litPos` into the block. -/
def copyBlockLit (w : Nat) (dst : Surface) (lit : List Nat) (litPos : Nat) (block : Nat) :
    Surface :=
  let dx := blockX w block
  let dy := blockY w block
  fun x y =>
    if dx ≤ x ∧ x < dx + 8 ∧ dy ≤ y ∧ y < dy + 8 then
      byteAt lit (litPos + 8 * (y - dy).toNat + (x - dx).toNat)
    else dst x y

/-- Motion offset of a map word: `int(op & 0x7fff) - 0x4000`
(mve_decoder.cpp:165,202). -/
def decodeOffset (op : Nat) : Int := ((op &&& 0x7fff : Nat) : Int) - 0x4000

/-- The three surfaces of the decoder: output `F` (`_frameSurface`), reference
`R0` (`_decodeSurface0`) and reference `R1` (`_decodeSurface1`). -/
structure St where
  F : Surface
  R0 : Surface
  R1 : Surface

/-- Pass 1 of `decodeFormat6` (mve_decoder.cpp:152-159): for each block, one
16-bit map word is read at the cursor `opPos`; `op == 0` copies a literal
block from the literal stream (cursor `litPos`), otherwise when the frame
number exceeds 1 the block is copied from `R1`. -/
def p6p1 (w : Nat) (map lit : List Nat) (fn : Int) (R1 : Surface) :
    List Nat → Surface → Nat → Nat → Surface × Nat × Nat
  | [], F, opPos, litPos => (F, opPos, litPos)
  | b :: bs, F, opPos, litPos =>
    let op := readU16LE map opPos
    if op = 0 then p6p1 w map lit fn R1 bs (copyBlockLit w F lit litPos b) (opPos + 2) (litPos + 64)
    else if fn > 1 then p6p1 w map lit fn R1 bs (copyBlock w F R1 b 0) (opPos + 2) litPos
    else p6p1 w map lit fn R1 bs F (opPos + 2) litPos

/-- Pass 2 of `decodeFormat6` (mve_decoder.cpp:161-173): the map is re-read
from the start; MSB-set words copy from `R0` (when the frame number is
positive), other nonzero words copy from the frame surface itself. -/
def p6p2 (w : Nat) (map : List Nat) (fn : Int) (R0 : Surface) :
    List Nat → Surface → Nat → Surface × Nat
  | [], F, opPos => (F, opPos)
  | b :: bs, F, opPos =>
    let op := readU16LE map opPos
    if op &&& 0x8000 ≠ 0 then
      if fn > 0 then p6p2 w map fn R0 bs (copyBlock w F R0 b (decodeOffset op)) (opPos + 2)
      else p6p2 w map fn R0 bs F (opPos + 2)
    else if op ≠ 0 then p6p2 w map fn R0 bs (copyBlockSelf w F b (decodeOffset op)) (opPos + 2)
    else p6p2 w map fn R0 bs F (opPos + 2)

/-- `MveDecoder::decodeFormat6` (mve_decoder.cpp:138-176).  The decoding map
lives at offset 14 of the frame data and spans `2*w*h` bytes; the literal
stream follows it.  Pre-step: when the frame number exceeds 1, `R1` becomes a
copy of `R0`; when it is positive, `R0` becomes a copy of `F` (in that
order). -/
def decodeFormat6 (w h : Nat) (fn : Int) (frameData : List Nat) (st : St) : St :=
  let map := frameData.drop 14
  let lit := frameData.drop (14 + w * h * 2)
  let R1 := if fn > 1 then st.R0 else st.R1
  let R0 := if fn > 0 then st.F else st.R0
  let F1 := (p6p1 w map lit fn R1 (List.range (w * h)) st.F 0 0).1
  let F2 := (p6p2 w map fn R0 (List.range (w * h)) F1 0).1
  ⟨F2, R0, R1⟩

/-- Map word of block `b` in format 6: the decoding map indexed directly at
word `b` (the claim's reading of the sequential map cursor). -/
def opAt6 (map : List Nat) (b : Nat) : Nat := readU16LE map (2 * b)

/-- Number of zero map words among the format-6 blocks before `b`: how many
literal blocks (64 bytes each) pass 1 has consumed when it reaches `b`. -/
def zc6 (map : List Nat) (b : Nat) : Nat :=
  (List.range b).countP (fun j => opAt6 map j == 0)

/-- One block of format-6 pass 1, stated with the indexed map word. -/
def p6Step1 (w : Nat) (map lit : List Nat) (fn : Int) (R1 : Surface) (F : Surface) (b : Nat) :
    Surface :=
  if opAt6 map b = 0 then copyBlockLit w F lit (64 * zc6 map b) b
  else if fn > 1 then copyBlock w F R1 b 0
  else F

/-- One block of format-6 pass 2, stated with the indexed map word. -/
def p6Step2 (w : Nat) (map : List Nat) (fn : Int) (R0 : Surface) (F : Surface) (b : Nat) :
    Surface :=
  let op := opAt6 map b
  if op &&& 0x8000 ≠ 0 then
    if fn > 0 then copyBlock w F R0 b (decodeOffset op) else F
  else if op ≠ 0 then copyBlockSelf w F b (decodeOffset op)
  else F

/-- Format-6 decode as the specification states it: the same pre-rotation,
then two row-major passes where block `b` consumes map word `b` (pass 2
re-reads the map from the start), literal blocks being taken consecutively
from the literal stream. -/
def decodeFormat6Spec (w h : Nat) (fn : Int) (frameData : List Nat) (st : St) : St :=
  let map := frameData.drop 14
  let lit := frameData.drop (14 + w * h * 2)
  let R1 := if fn > 1 then st.R0 else st.R1
  let R0 := if fn > 0 then st.F else st.R0
  let F1 := (List.range (w * h)).foldl (p6Step1 w map lit fn R1) st.F
  let F2 := (List.range (w * h)).foldl (p6Step2 w map fn R0) F1
  ⟨F2, R0, R1⟩

/-- Modelled from the spec: `MveSkipStream` is declared in `video/mve_decoder.h`,
which is not among this repository's sources here.  Per spec section 4.2 the
skip map is consumed 16-bit words at a time, bit by bit from least to most
significant; a 0 bit skips the block.  `pos` is the byte cursor into the skip
map, `word` the remaining bits of the current word, `bits` how many of them
are still unread. -/
structure MveSkipStream where
  data : List Nat
  pos : Nat
  word : Nat
  bits : Nat

/-- Modelled from the spec: one skip query (spec section 4.2).  When the
current word is spent the next one is fetched; an exhausted word supply is the
`MapExhausted` condition, reported as `none`. -/
def MveSkipStream.skip (s : MveSkipStream) : Option (Bool × MveSkipStream) :=
  if s.bits = 0 then
    if s.pos + 2 ≤ s.data.length then
      some ((readU16LE s.data s.pos &&& 1) == 0,
        ⟨s.data, s.pos + 2, readU16LE s.data s.pos >>> 1, 15⟩)
    else none
  else some ((s.word &&& 1) == 0, ⟨s.data, s.pos, s.word >>> 1, s.bits - 1⟩)

/-- Skip decision for block `b`, read directly from the skip map: bit `b % 16`
of word `b / 16`; a 0 bit means the block is skipped. -/
def skipAt (sm : List Nat) (b : Nat) : Bool :=
  ((readU16LE sm (2 * (b / 16)) >>> (b % 16)) &&& 1) == 0

/-- Number of non-skipped blocks before `b`: the decoding-map word index the
format-10 passes have reached at block `b`. -/
def nsCount (sm : List Nat) (b : Nat) : Nat :=
  (List.range b).countP (fun j => !skipAt sm j)

/-- Invariant describing the skip stream after `k` skip queries from a reset:
`(k + 15) / 16` words have been fetched, the unread bits of the current word
are those above bit `k % 16` (only constrained while bits remain). -/
def SkipStateOk (sm : List Nat) (k : Nat) (s : MveSkipStream) : Prop :=
  s.data = sm ∧ s.pos = 2 * ((k + 15) / 16) ∧ s.bits = 16 * ((k + 15) / 16) - k ∧
  (s.bits ≠ 0 → s.word = readU16LE sm (2 * (k / 16)) >>> (k % 16))

/-- Decoding-map word consumed for non-skipped block `b` in format 10. -/
def opAt10 (sm dm : List Nat) (b : Nat) : Nat := readU16LE dm (2 * nsCount sm b)

/-- Number of non-skipped zero-word blocks before `b` in format 10: how many
literal blocks pass 1 has consumed when it reaches `b`. -/
def zc10 (sm dm : List Nat) (b : Nat) : Nat :=
  (List.range b).countP (fun j => !skipAt sm j && opAt10 sm dm j == 0)

/-- Pass 1 of `decodeFormat10` (mve_decoder.cpp:183-192): skipped blocks are
passed over; otherwise one map word is read and a zero word copies a literal
block into `R0`. -/
def p10p1 (w : Nat) (dm lit : List Nat) :
    List Nat → Surface → MveSkipStream → Nat → Nat → Except MveError Surface
  | [], R0, _, _, _ => .ok R0
  | b :: bs, R0, ss, opPos, litPos =>
    match ss.skip with
    | none => .error .mapExhausted
    | some (sk, ss2) =>
      if sk then p10p1 w dm lit bs R0 ss2 opPos litPos
      else
        match readU16LEOpt dm opPos with
        | none => .error .mapExhausted
        | some op =>
          if op = 0 then
            p10p1 w dm lit bs (copyBlockLit w R0 lit litPos b) ss2 (opPos + 2) (litPos + 64)
          else p10p1 w dm lit bs R0 ss2 (opPos + 2) litPos

/-- Pass 2 of `decodeFormat10` (mve_decoder.cpp:194-205): for each non-skipped
block the map word is re-read; a nonzero word copies into `R0` from `R1` when
its MSB is set, else from `R0` itself (an aliased copy). -/
def p10p2 (w : Nat) (dm : List Nat) (R1 : Surface) :
    List Nat → Surface → MveSkipStream → Nat → Except MveError Surface
  | [], R0, _, _ => .ok R0
  | b :: bs, R0, ss, opPos =>
    match ss.skip with
    | none => .error .mapExhausted
    | some (sk, ss2) =>
      if sk then p10p2 w dm R1 bs R0 ss2 opPos
      else
        match readU16LEOpt dm opPos with
        | none => .error .mapExhausted
        | some op =>
          if op ≠ 0 then
            if op &&& 0x8000 ≠ 0 then
              p10p2 w dm R1 bs (copyBlock w R0 R1 b (decodeOffset op)) ss2 (opPos + 2)
            else
              p10p2 w dm R1 bs (copyBlockSelf w R0 b (decodeOffset op)) ss2 (opPos + 2)
          else p10p2 w dm R1 bs R0 ss2 (opPos + 2)

/-- Pass 3 of `decodeFormat10` (mve_decoder.cpp:207-212): every non-skipped
block of `R0` is copied to the frame surface. -/
def p10p3 (w : Nat) (R0f : Surface) :
    List Nat → Surface → MveSkipStream → Except MveError Surface
  | [], F, _ => .ok F
  | b :: bs, F, ss =>
    match ss.skip with
    | none => .error .mapExhausted
    | some (sk, ss2) =>
      if sk then p10p3 w R0f bs F ss2
      else p10p3 w R0f bs (copyBlock w F R0f b 0) ss2

/-- `MveDecoder::decodeFormat10` (mve_decoder.cpp:178-217).  The literal
stream is the frame data from offset 14; the skip stream is reset before each
pass and the map cursor before passes 1 and 2; afterwards `R0` and `R1` are
swapped. -/
def decodeFormat10 (w h : Nat) (sm dm frameData : List Nat) (st : St) : Except MveError St :=
  let lit := frameData.drop 14
  let blocks := List.range (w * h)
  match p10p1 w dm lit blocks st.R0 ⟨sm, 0, 0, 0⟩ 0 0 with
  | .error e => .error e
  | .ok R0a =>
    match p10p2 w dm st.R1 blocks R0a ⟨sm, 0, 0, 0⟩ 0 with
    | .error e => .error e
    | .ok R0b =>
      match p10p3 w R0b blocks st.F ⟨sm, 0, 0, 0⟩ with
      | .error e => .error e
      | .ok F2 => .ok ⟨F2, st.R1, R0b⟩

/-- One block of format-10 pass 1, stated with the indexed skip bit and map
word. -/
def p10Step1 (w : Nat) (sm dm lit : List Nat) (R0 : Surface) (b : Nat) : Surface :=
  if skipAt sm b = false ∧ opAt10 sm dm b = 0 then
    copyBlockLit w R0 lit (64 * zc10 sm dm b) b
  else R0

/-- One block of format-10 pass 2, stated with the indexed skip bit and map
word. -/
def p10Step2 (w : Nat) (sm dm : List Nat) (R1 : Surface) (R0 : Surface) (b : Nat) : Surface :=
  if skipAt sm b = false ∧ opAt10 sm dm b ≠ 0 then
    if opAt10 sm dm b &&& 0x8000 ≠ 0 then copyBlock w R0 R1 b (decodeOffset (opAt10 sm dm b))
    else copyBlockSelf w R0 b (decodeOffset (opAt10 sm dm b))
  else R0

/-- One block of format-10 pass 3 (used by the fold-to-pointwise lemma). -/
def p10Step3 (w : Nat) (sm : List Nat) (R0f : Surface) (F : Surface) (b : Nat) : Surface :=
  if skipAt sm b = false then copyBlock w F R0f b 0 else F

/-- Index of the block containing pixel `(x, y)` (row-major 8x8 grid). -/
def blockAt (w : Nat) (x y : Int) : Nat := (y.toNat / 8) * w + x.toNat / 8

/-- Format-10 decode as the specification states it: three row-major passes
driven by the indexed skip bits, each non-skipped block consuming one indexed
map word; `MapExhausted` exactly when the skip-word supply cannot cover the
block count or the decoding map has fewer words than the non-skipped blocks
need; skipped pixels of `F` keep their prior contents; finally `R0` and `R1`
are swapped. -/
def decodeFormat10Spec (w h : Nat) (sm dm frameData : List Nat) (st : St) :
    Except MveError St :=
  let lit := frameData.drop 14
  let n := w * h
  if 2 * ((n + 15) / 16) ≤ sm.length ∧ 2 * nsCount sm n ≤ dm.length then
    let R0a := (List.range n).foldl (p10Step1 w sm dm lit) st.R0
    let R0b := (List.range n).foldl (p10Step2 w sm dm st.R1) R0a
    let F2 : Surface := fun x y =>
      if 0 ≤ x ∧ x < ((8 * w : Nat) : Int) ∧ 0 ≤ y ∧ y < ((8 * h : Nat) : Int) ∧
          skipAt sm (blockAt w x y) = false then
        R0b x y
      else st.F x y
    .ok ⟨F2, st.R1, R0b⟩
  else .error .mapExhausted

/-- Per-block supply condition for the skip stream: the word fetch falling on
block `j` (every 16th block) must lie within the skip map. -/
def p10SkipCond (sm : List Nat) (j : Nat) : Prop :=
  j % 16 = 0 → 2 * (j / 16) + 2 ≤ sm.length

/-- Per-block supply condition for a format-10 pass: the skip fetch and, for a
non-skipped block, the decoding-map word must be available. -/
def p10Cond (sm dm : List Nat) (j : Nat) : Prop :=
  p10SkipCond sm j ∧ (skipAt sm j = false → 2 * nsCount sm j + 2 ≤ dm.length)

/-- Channel expansion of the palette opcode: `(c << 2) | c`, stored into a
byte (mve_decoder.cpp:409-411). -/
def expandChannel (c : Nat) : Nat := ((c <<< 2) ||| c) % 256

/-- Write one RGB triple into palette slot `i` (mve_decoder.cpp:404-412). -/
def writeTriple (q : Nat → Nat) (i r g b : Nat) : Nat → Nat :=
  fun j =>
    if j = 3 * i then expandChannel r
    else if j = 3 * i + 1 then expandChannel g
    else if j = 3 * i + 2 then expandChannel b
    else q j

/-- One iteration of the palette loop: slot `palStart + i` takes the `i`-th
RGB triple of the payload (triples start at byte `base` of the source). -/
def palWrite (src : List Nat) (base s : Nat) (q : Nat → Nat) (i : Nat) : Nat → Nat :=
  writeTriple q (s + i) (byteAt src (base + 3 * i)) (byteAt src (base + 3 * i + 1))
    (byteAt src (base + 3 * i + 2))

/-- Decoder state: the fields of `MveDecoder` the opcode machine touches.
Buffered byte arrays are lists (their length playing the stored size); the
audio stream is modelled by its creation flag, sample rate and queued
buffers. -/
structure DecState where
  done : Bool
  packetLen : Nat
  packetKind : Nat
  palette : Nat → Nat
  dirtyPalette : Bool
  widthInBlocks : Nat
  heightInBlocks : Nat
  F : Surface
  R0 : Surface
  R1 : Surface
  frameNumber : Int
  frameRateNum : Nat
  frameRateDen : Nat
  frameFormat : Nat
  frameData : List Nat
  skipMap : List Nat
  decodingMap : List Nat
  hasAudioStream : Bool
  audioSampleRate : Nat
  audioQueued : List (List Nat)

/-- Freshly constructed decoder (mve_decoder.cpp:40-56). -/
def initState : DecState where
  done := false
  packetLen := 0
  packetKind := 0
  palette := fun _ => 0
  dirtyPalette := false
  widthInBlocks := 0
  heightInBlocks := 0
  F := fun _ _ => 0
  R0 := fun _ _ => 0
  R1 := fun _ _ => 0
  frameNumber := -1
  frameRateNum := 0
  frameRateDen := 1
  frameFormat := 0
  frameData := []
  skipMap := []
  decodingMap := []
  hasAudioStream := false
  audioSampleRate := 0
  audioQueued := []

/-- One opcode of `MveDecoder::readNextPacket` (mve_decoder.cpp:247-456): the
4-byte opcode header `(opLen u16LE, opKind u16BE)` at `pos`, then the
case-specific payload reads.  Returns the new state and stream position, or
the error the C code raises via `assert`/`error`.  The `0x0100` case folds the
following packet header read in (mve_decoder.cpp:260-266). -/
def stepOp (src : List Nat) (pos : Nat) (st : DecState) : Except MveError (DecState × Nat) :=
  let opLen := readU16LE src pos
  let k := readU16BE src (pos + 2)
  let p := pos + 4
  if k = 0x0000 then
    if opLen = 0 then .ok ({ st with done := true }, p) else .error .assertFailed
  else if k = 0x0100 then
    if opLen = 0 then
      .ok ({ st with packetLen := readU16LE src p, packetKind := readU16LE src (p + 2) }, p + 4)
    else .error .assertFailed
  else if k = 0x0200 then
    if opLen = 6 then
      .ok ({ st with
              frameRateNum := 1000000
              frameRateDen := readU32LE src p * readU16LE src (p + 4) % 4294967296 }, p + 6)
    else .error .assertFailed
  else if k = 0x0300 then
    if opLen = 8 then
      if readU16LE src (p + 2) &&& 1 ≠ 0 ∨ readU16LE src (p + 2) &&& 2 ≠ 0 then
        .error .badConfiguration
      else
        .ok ({ st with
                hasAudioStream := true
                audioSampleRate := readU16LE src (p + 4)
                audioQueued := [] }, p + 8)
    else .error .assertFailed
  else if k = 0x0400 then
    if opLen = 0 then .ok (st, p) else .error .assertFailed
  else if k = 0x0502 then
    if opLen = 8 then
      .ok ({ st with
              widthInBlocks := readU16LE src p
              heightInBlocks := readU16LE src (p + 2)
              F := fun _ _ => 0
              R0 := fun _ _ => 0
              R1 := fun _ _ => 0 }, p + 8)
    else .error .assertFailed
  else if k = 0x0600 then
    .ok ({ st with frameFormat := 0x06, frameData := (src.drop p).take opLen }, p + opLen)
  else if k = 0x0701 then
    if opLen = 6 then
      let fn := st.frameNumber + 1
      if st.frameFormat = 0x06 then
        let d := decodeFormat6 st.widthInBlocks st.heightInBlocks fn st.frameData
          ⟨st.F, st.R0, st.R1⟩
        .ok ({ st with
                frameNumber := fn
                F := d.F
                R0 := d.R0
                R1 := d.R1
                decodingMap := [] }, p + 6)
      else if st.frameFormat = 0x10 then
        match decodeFormat10 st.widthInBlocks st.heightInBlocks st.skipMap st.decodingMap
            st.frameData ⟨st.F, st.R0, st.R1⟩ with
        | .ok d =>
          .ok ({ st with
                  frameNumber := fn
                  F := d.F
                  R0 := d.R0
                  R1 := d.R1 }, p + 6)
        | .error e => .error e
      else .ok ({ st with frameNumber := fn }, p + 6)
    else .error .assertFailed
  else if k = 0x0800 then
    if opLen = readU16LE src (p + 4) + 6 then
      if st.hasAudioStream then
        .ok ({ st with audioQueued :=
               st.audioQueued ++ [(src.drop (p + 6)).take (readU16LE src (p + 4))] },
          p + 6 + readU16LE src (p + 4))
      else .error .assertFailed
    else .error .assertFailed
  else if k = 0x0900 then
    if opLen = 6 then .ok (st, p + 6) else .error .assertFailed
  else if k = 0x0a00 then
    if opLen = 6 then .ok (st, p + 6) else .error .assertFailed
  else if k = 0x0c00 then
    if 3 * readU16LE src (p + 2) + 2 ≤ opLen then
      .ok ({ st with
              palette := (List.range (readU16LE src (p + 2))).foldl
                (palWrite src (p + 4) (readU16LE src p)) st.palette
              dirtyPalette := true },
        p + 4 + 3 * readU16LE src (p + 2) + readU16LE src (p + 2) % 2)
    else .error .assertFailed
  else if k = 0x0e00 then
    .ok ({ st with skipMap := (src.drop p).take opLen }, p + opLen)
  else if k = 0x0f00 then
    .ok ({ st with decodingMap := (src.drop p).take opLen }, p + opLen)
  else if k = 0x1000 then
    .ok ({ st with frameFormat := 0x10, frameData := (src.drop p).take opLen }, p + opLen)
  else .error .unknownOpcode

/-- Fuel-bounded iteration of the opcode machine: the concatenation of the
`readNextPacket` loops.  On an error the state and position of the failing
opcode are returned unchanged, as `error(...)` aborts before any mutation of
the default case. -/
def runOps : Nat → List Nat → Nat → DecState → DecState × Nat × Option MveError
  | 0, _, pos, st => (st, pos, none)
  | fuel + 1, src, pos, st =>
    if st.done then (st, pos, none)
    else
      match stepOp src pos st with
      | .error e => (st, pos, some e)
      | .ok (st2, pos2) => runOps fuel src pos2 st2

/-- The opcode tags of `readNextPacket`'s switch (mve_decoder.cpp:253-449). -/
def knownTag (k : Nat) : Bool :=
  (k == 0x0000) || (k == 0x0100) || (k == 0x0200) || (k == 0x0300) || (k == 0x0400) ||
  (k == 0x0502) || (k == 0x0600) || (k == 0x0701) || (k == 0x0800) || (k == 0x0900) ||
  (k == 0x0a00) || (k == 0x0c00) || (k == 0x0e00) || (k == 0x0f00) || (k == 0x1000)

/-- The 20 bytes `MveDecoder::loadStream` compares: the ASCII signature, the
0x1A byte, and the terminating NUL that `sizeof(signature)` includes
(mve_decoder.cpp:66-73). -/
def signatureBytes : List Nat :=
  [73, 110, 116, 101, 114, 112, 108, 97, 121, 32, 77, 86, 69, 32, 70, 105, 108, 101, 26, 0]

/-- Header validation of `MveDecoder::loadStream` (mve_decoder.cpp:68-86): 20
bytes are read and compared with `memcmp` against the signature including its
NUL terminator; a mismatch is the recoverable signature failure.  Then three
16-bit words are read (hence from bytes 20..25) and asserted to be the magic
values. -/
def loadValidate (src : List Nat) : Except MveError Unit :=
  if (List.range 20).map (byteAt src) = signatureBytes then
    if readU16LE src 20 = 0x001a ∧ readU16LE src 22 = 0x0100 ∧ readU16LE src 24 = 0x1133 then
      .ok ()
    else .error .assertFailed
  else .error .invalidSignature

/-- Example surface used by concrete witnesses. -/
def exSurfA : Surface := fun x y => (x + 2 * y).toNat % 256

/-- Second example surface used by concrete witnesses. -/
def exSurfB : Surface := fun x y => (3 * x + y + 1).toNat % 256

/-- A source whose bytes 0..18 match the ASCII signature and whose bytes
19..24 hold the three little-endian magic words, as claim C5 lays the header
out. -/
def claimHeaderEx : List Nat :=
  [73, 110, 116, 101, 114, 112, 108, 97, 121, 32, 77, 86, 69, 32, 70, 105, 108, 101, 26,
   26, 0, 0, 1, 51, 17, 0]

/-- An init-audio opcode (tag 0x0300, length 8) requesting stereo
(`flags = 1`). -/
def audioStereoEx : List Nat :=
  [8, 0, 3, 0, 0, 0, 1, 0, 34, 86, 0, 4]

/-- An init-video opcode (tag 0x0502, length 8) with zero width and height in
blocks. -/
def videoZeroEx : List Nat :=
  [8, 0, 5, 2, 0, 0, 0, 0, 1, 0, 0, 0]

/-- A palette opcode (tag 0x0C00, length 5) with `palStart = 0`,
`palCount = 1`: one RGB triple and one pad byte. -/
def palEx : List Nat :=
  [5, 0, 12, 0, 0, 0, 1, 0, 10, 20, 30, 99]

/-- A silent-audio opcode (tag 0x0900, length 6). -/
def silentEx : List Nat :=
  [6, 0, 9, 0, 7, 0, 0, 0, 16, 0]

/-- A start-audio no-op opcode followed by an opcode with the unknown tag
0xBEEF. -/
def unknownTagEx : List Nat :=
  [0, 0, 4, 0, 0, 0, 190, 239]

/-- Skip map for concrete format-10 runs: one word 0x0001, marking block 0 as
not skipped. -/
def smEx : List Nat := [1, 0]

/-- Decoding map for concrete format-10 runs: one word 0x4000 (offset 0). -/
def dmEx : List Nat := [0, 64]

/-- Concrete surface triple for witnesses. -/
def stEx : St := ⟨exSurfA, exSurfB, exSurfA⟩

lemma zc6_zero (map : List Nat) : zc6 map 0 = 0 := rfl

lemma zc6_succ (map : List Nat) (k : Nat) :
    zc6 map (k + 1) = zc6 map k + if opAt6 map k = 0 then 1 else 0 := by
  rw [zc6, zc6, List.range_succ, List.countP_append]
  simp [List.countP_cons, beq_iff_eq]

lemma p6p1_eq (w : Nat) (map lit : List Nat) (fn : Int) (R1 : Surface) :
    ∀ m k F, p6p1 w map lit fn R1 (List.range' k m) F (2 * k) (64 * zc6 map k) =
      ((List.range' k m).foldl (p6Step1 w map lit fn R1) F, 2 * (k + m), 64 * zc6 map (k + m)) := by
  intro m
  induction m with
  | zero => intro k F; simp [List.range'_zero, p6p1]
  | succ m ih =>
    intro k F
    rw [List.range'_succ]
    have hop : readU16LE map (2 * k) = opAt6 map k := rfl
    have h2k : 2 * k + 2 = 2 * (k + 1) := by ring
    have hk1 : k + 1 + m = k + (m + 1) := by omega
    by_cases h0 : opAt6 map k = 0
    · have hz : 64 * zc6 map k + 64 = 64 * zc6 map (k + 1) := by
        rw [zc6_succ, if_pos h0]; ring
      simp only [p6p1, hop, if_pos h0, h2k, hz, ih (k + 1), List.foldl_cons, p6Step1, hk1]
    · by_cases h1 : fn > 1
      · simp only [p6p1, hop, if_neg h0, if_pos h1, h2k]
        have hz : zc6 map (k + 1) = zc6 map k := by rw [zc6_succ, if_neg h0]; omega
        rw [show (64 * zc6 map k = 64 * zc6 map (k + 1)) from by rw [hz]]
        simp only [ih (k + 1), List.foldl_cons, p6Step1, if_neg h0, if_pos h1, hk1]
      · simp only [p6p1, hop, if_neg h0, if_neg h1, h2k]
        have hz : zc6 map (k + 1) = zc6 map k := by rw [zc6_succ, if_neg h0]; omega
        rw [show (64 * zc6 map k = 64 * zc6 map (k + 1)) from by rw [hz]]
        simp only [ih (k + 1), List.foldl_cons, p6Step1, if_neg h0, if_neg h1, hk1]

lemma p6p2_eq (w : Nat) (map : List Nat) (fn : Int) (R0 : Surface) :
    ∀ m k F, p6p2 w map fn R0 (List.range' k m) F (2 * k) =
      ((List.range' k m).foldl (p6Step2 w map fn R0) F, 2 * (k + m)) := by
  intro m
  induction m with
  | zero => intro k F; simp [List.range'_zero, p6p2]
  | succ m ih =>
    intro k F
    rw [List.range'_succ]
    have hop : readU16LE map (2 * k) = opAt6 map k := rfl
    have h2k : 2 * k + 2 = 2 * (k + 1) := by ring
    have hk1 : k + 1 + m = k + (m + 1) := by omega
    by_cases hm : opAt6 map k &&& 0x8000 ≠ 0
    · by_cases h1 : fn > 0
      · simp only [p6p2, hop, if_pos hm, if_pos h1, h2k, ih (k + 1), List.foldl_cons,
          p6Step2, hk1]
      · simp only [p6p2, hop, if_pos hm, if_neg h1, h2k, ih (k + 1), List.foldl_cons,
          p6Step2, hk1]
    · by_cases h0 : opAt6 map k ≠ 0
      · simp only [p6p2, hop, if_neg hm, if_pos h0, h2k, ih (k + 1), List.foldl_cons,
          p6Step2, hk1]
      · simp only [p6p2, hop, if_neg hm, if_neg h0, h2k, ih (k + 1), List.foldl_cons,
          p6Step2, hk1]

/-- C1: format-6 decode performs the pre-rotation (`R1 ← R0` when the frame
number exceeds 1, then `R0 ← F` when it is positive) and two row-major passes
over the decoding map at offset 14 of the frame data, block `b` consuming map
word `b`: pass 1 copies a literal block into `F` when the word is zero, else
copies block `b` of `R1` into `F` only when the frame number exceeds 1; pass 2
re-reads the map from the start and, for MSB-set words, copies block `b` into
`F` from `R0` at offset `(op & 0x7FFF) - 0x4000` when the frame number is
positive, for nonzero MSB-clear words copies from `F` itself at that offset,
and leaves zero-word blocks unchanged. -/
theorem c1_format6_decode_matches_spec (w h : Nat) (fn : Int) (frameData : List Nat) (st : St) :
    decodeFormat6 w h fn frameData st = decodeFormat6Spec w h fn frameData st := by
  have h1 := p6p1_eq w (frameData.drop 14) (frameData.drop (14 + w * h * 2)) fn
    (if fn > 1 then st.R0 else st.R1) (w * h) 0 st.F
  have h2 := p6p2_eq w (frameData.drop 14) fn (if fn > 0 then st.F else st.R0) (w * h) 0
    ((List.range' 0 (w * h)).foldl
      (p6Step1 w (frameData.drop 14) (frameData.drop (14 + w * h * 2)) fn
        (if fn > 1 then st.R0 else st.R1)) st.F)
  simp only [Nat.mul_zero, zc6_zero, Nat.zero_add] at h1 h2
  simp only [decodeFormat6, decodeFormat6Spec, List.range_eq_range', h1, h2]

lemma p6p1_R1_irrelevant (w : Nat) (map lit : List Nat) (fn : Int) (hfn : ¬ fn > 1)
    (R1 R1a : Surface) :
    ∀ bs F opPos litPos, p6p1 w map lit fn R1 bs F opPos litPos =
      p6p1 w map lit fn R1a bs F opPos litPos := by
  intro bs
  induction bs with
  | nil => intro F opPos litPos; rfl
  | cons b bs ih =>
    intro F opPos litPos
    by_cases h0 : readU16LE map opPos = 0
    · simp only [p6p1, if_pos h0, ih]
    · simp only [p6p1, if_neg h0, if_neg hfn, ih]

lemma p6p2_R0_irrelevant (w : Nat) (map : List Nat) (fn : Int) (hfn : ¬ fn > 0)
    (R0 R0a : Surface) :
    ∀ bs F opPos, p6p2 w map fn R0 bs F opPos = p6p2 w map fn R0a bs F opPos := by
  intro bs
  induction bs with
  | nil => intro F opPos; rfl
  | cons b bs ih =>
    intro F opPos
    by_cases hm : readU16LE map opPos &&& 0x8000 ≠ 0
    · simp only [p6p2, if_pos hm, if_neg hfn, ih]
    · by_cases h0 : readU16LE map opPos ≠ 0
      · simp only [p6p2, if_neg hm, if_pos h0, ih]
      · simp only [p6p2, if_neg hm, if_neg h0, ih]

/-- C4: when the frame number at decode time is 0, a format-6 decode never
reads `R0` or `R1` (its output frame is the same for any contents of the two
reference surfaces, which are themselves passed through unchanged); when the
frame number is 1, it never reads `R1` (the output frame and new `R0` are the
same for any contents of `R1`).  Read-freedom is stated as non-interference. -/
theorem c4_format6_reference_read_freedom :
    (∀ w h fd F R0 R1 R0a R1a,
      (decodeFormat6 w h 0 fd ⟨F, R0, R1⟩).F = (decodeFormat6 w h 0 fd ⟨F, R0a, R1a⟩).F
      ∧ (decodeFormat6 w h 0 fd ⟨F, R0, R1⟩).R0 = R0
      ∧ (decodeFormat6 w h 0 fd ⟨F, R0, R1⟩).R1 = R1)
    ∧ (∀ w h fd F R0 R1 R1a,
      (decodeFormat6 w h 1 fd ⟨F, R0, R1⟩).F = (decodeFormat6 w h 1 fd ⟨F, R0, R1a⟩).F
      ∧ (decodeFormat6 w h 1 fd ⟨F, R0, R1⟩).R0 = (decodeFormat6 w h 1 fd ⟨F, R0, R1a⟩).R0) := by
  constructor
  · intro w h fd F R0 R1 R0a R1a
    have hn1 : ¬ (0 : Int) > 1 := by norm_num
    have hn0 : ¬ (0 : Int) > 0 := by norm_num
    refine ⟨?_, ?_, ?_⟩
    · unfold decodeFormat6
      simp only [if_neg hn1, if_neg hn0]
      rw [p6p1_R1_irrelevant w _ _ 0 hn1 R1 R1a,
        p6p2_R0_irrelevant w _ 0 hn0 R0 R0a]
    · unfold decodeFormat6; simp [if_neg hn0]
    · unfold decodeFormat6; simp [if_neg hn1]
  · intro w h fd F R0 R1 R1a
    have hn1 : ¬ (1 : Int) > 1 := by norm_num
    have hp0 : (1 : Int) > 0 := by norm_num
    constructor
    · unfold decodeFormat6
      simp only [if_neg hn1, if_pos hp0]
      rw [p6p1_R1_irrelevant w _ _ 1 hn1 R1 R1a]
    · unfold decodeFormat6; simp [if_pos hp0]

/-- C3: in both formats the motion offset of a map word is the signed value
`(op & 0x7FFF) - 0x4000` (so `0x4000 ↦ 0`, `0x0000 ↦ -16384`,
`0x7FFF ↦ +16383`), and the offsetted block copy writes the block's own 8x8
anchor region while reading the source region whose top-left is
`(blockX·8 + offset mod width, blockY·8 + offset div width)` (mod and div
being the C truncated operations on the signed offset); pixels outside the
block's anchor region are left unchanged. -/
theorem c3_offset_decoding_and_block_copy :
    decodeOffset 0x4000 = 0 ∧ decodeOffset 0x0000 = -16384 ∧ decodeOffset 0x7fff = 16383 ∧
    (∀ w dst src b off i j, 0 ≤ i → i < 8 → 0 ≤ j → j < 8 →
      copyBlock w dst src b off (blockX w b + i) (blockY w b + j) =
        src (blockX w b + off.tmod ((8 * w : Nat)) + i)
          (blockY w b + off.tdiv ((8 * w : Nat)) + j)) ∧
    (∀ w dst src b off x y,
      ¬ (blockX w b ≤ x ∧ x < blockX w b + 8 ∧ blockY w b ≤ y ∧ y < blockY w b + 8) →
      copyBlock w dst src b off x y = dst x y) := by
  refine ⟨by decide, by decide, by decide, ?_, ?_⟩
  · intro w dst src b off i j hi0 hi8 hj0 hj8
    simp only [copyBlock]
    rw [if_pos (by refine ⟨by omega, by omega, by omega, by omega⟩)]
    congr 1 <;> omega
  · intro w dst src b off x y hout
    simp only [copyBlock]
    rw [if_neg hout]

/-- Concrete instantiation of the hypotheses of
`c3_offset_decoding_and_block_copy`. -/
theorem c3_offset_decoding_and_block_copy_witness :
    ((0 : Int) ≤ 2 ∧ (2 : Int) < 8 ∧ (0 : Int) ≤ 5 ∧ (5 : Int) < 8) ∧
    copyBlock 2 exSurfA exSurfB 3 (-5) (blockX 2 3 + 2) (blockY 2 3 + 5) =
      exSurfB (blockX 2 3 + Int.tmod (-5) ((8 * 2 : Nat)) + 2)
        (blockY 2 3 + Int.tdiv (-5) ((8 * 2 : Nat)) + 5) :=
  ⟨by decide,
    c3_offset_decoding_and_block_copy.2.2.2.1 2 exSurfA exSurfB 3 (-5) 2 5
      (by decide) (by decide) (by decide) (by decide)⟩

/-- C5 counterexample: a source laid out exactly as the claim requires —
bytes 0..18 are the ASCII signature with the 0x1A terminator and bytes 19..24
hold the three little-endian magic words — is nevertheless rejected with the
signature failure, because `loadStream` compares 20 bytes (the `memcmp` spans
`sizeof(signature)`, which includes the string's NUL terminator) and reads the
magic words only afterwards, from bytes 20..25. -/
theorem c5_signature_layout_counterexample :
    loadValidate claimHeaderEx = .error .invalidSignature ∧
    (List.range 19).map (byteAt claimHeaderEx) = signatureBytes.take 19 ∧
    readU16LE claimHeaderEx 19 = 0x001a ∧
    readU16LE claimHeaderEx 21 = 0x0100 ∧
    readU16LE claimHeaderEx 23 = 0x1133 :=
  ⟨rfl, by decide, by decide, by decide, by decide⟩

/-- C5 as amended: `load` compares 20 bytes — the ASCII signature, the 0x1A
byte and the NUL terminator — returning the recoverable `InvalidSignature`
failure exactly when those 20 bytes mismatch, and succeeds exactly when they
match and the three little-endian magic words at bytes 20..25 equal
`0x001A, 0x0100, 0x1133` (a magic mismatch is an assertion failure, not
`InvalidSignature`). -/
theorem c5_load_validation_amended (src : List Nat) :
    (loadValidate src = .error .invalidSignature ↔
      (List.range 20).map (byteAt src) ≠ signatureBytes) ∧
    (loadValidate src = .ok () ↔
      (List.range 20).map (byteAt src) = signatureBytes ∧
      readU16LE src 20 = 0x001a ∧ readU16LE src 22 = 0x0100 ∧ readU16LE src 24 = 0x1133) := by
  unfold loadValidate
  by_cases hs : (List.range 20).map (byteAt src) = signatureBytes
  · by_cases hm : readU16LE src 20 = 0x001a ∧ readU16LE src 22 = 0x0100 ∧
        readU16LE src 24 = 0x1133
    · rw [if_pos hs, if_pos hm]; simp [hs, hm]
    · rw [if_pos hs, if_neg hm]; simp [hs, hm]
  · rw [if_neg hs]; simp [hs]

lemma stepOp_case_0300 (src : List Nat) (pos : Nat) (st : DecState)
    (htag : readU16BE src (pos + 2) = 0x0300) :
    stepOp src pos st =
      if readU16LE src pos = 8 then
        if readU16LE src (pos + 6) &&& 1 ≠ 0 ∨ readU16LE src (pos + 6) &&& 2 ≠ 0 then
          .error .badConfiguration
        else
          .ok ({ st with
                  hasAudioStream := true
                  audioSampleRate := readU16LE src (pos + 8)
                  audioQueued := [] }, pos + 12)
      else .error .assertFailed := by
  simp only [stepOp, htag]
  rw [if_neg (by decide : ¬((768 : Nat) = 0)), if_neg (by decide : ¬((768 : Nat) = 256)),
    if_neg (by decide : ¬((768 : Nat) = 512)), if_pos trivial,
    show pos + 4 + 2 = pos + 6 from by omega, show pos + 4 + 4 = pos + 8 from by omega,
    show pos + 4 + 8 = pos + 12 from by omega]

lemma stepOp_case_0502 (src : List Nat) (pos : Nat) (st : DecState)
    (htag : readU16BE src (pos + 2) = 0x0502) :
    stepOp src pos st =
      if readU16LE src pos = 8 then
        .ok ({ st with
                widthInBlocks := readU16LE src (pos + 4)
                heightInBlocks := readU16LE src (pos + 6)
                F := fun _ _ => 0
                R0 := fun _ _ => 0
                R1 := fun _ _ => 0 }, pos + 12)
      else .error .assertFailed := by
  simp only [stepOp, htag]
  rw [if_neg (by decide : ¬((1282 : Nat) = 0)), if_neg (by decide : ¬((1282 : Nat) = 256)),
    if_neg (by decide : ¬((1282 : Nat) = 512)), if_neg (by decide : ¬((1282 : Nat) = 768)),
    if_neg (by decide : ¬((1282 : Nat) = 1024)), if_pos trivial,
    show pos + 4 + 2 = pos + 6 from by omega, show pos + 4 + 8 = pos + 12 from by omega]

lemma stepOp_case_0900 (src : List Nat) (pos : Nat) (st : DecState)
    (htag : readU16BE src (pos + 2) = 0x0900) :
    stepOp src pos st =
      if readU16LE src pos = 6 then .ok (st, pos + 10) else .error .assertFailed := by
  simp only [stepOp, htag]
  rw [if_neg (by decide : ¬((2304 : Nat) = 0)), if_neg (by decide : ¬((2304 : Nat) = 256)),
    if_neg (by decide : ¬((2304 : Nat) = 512)), if_neg (by decide : ¬((2304 : Nat) = 768)),
    if_neg (by decide : ¬((2304 : Nat) = 1024)), if_neg (by decide : ¬((2304 : Nat) = 1282)),
    if_neg (by decide : ¬((2304 : Nat) = 1536)), if_neg (by decide : ¬((2304 : Nat) = 1793)),
    if_neg (by decide : ¬((2304 : Nat) = 2048)), if_pos trivial,
    show pos + 4 + 6 = pos + 10 from by omega]

lemma stepOp_case_0c00 (src : List Nat) (pos : Nat) (st : DecState)
    (htag : readU16BE src (pos + 2) = 0x0c00) :
    stepOp src pos st =
      if 3 * readU16LE src (pos + 6) + 2 ≤ readU16LE src pos then
        .ok ({ st with
                palette := (List.range (readU16LE src (pos + 6))).foldl
                  (palWrite src (pos + 8) (readU16LE src (pos + 4))) st.palette
                dirtyPalette := true },
          pos + 8 + 3 * readU16LE src (pos + 6) + readU16LE src (pos + 6) % 2)
      else .error .assertFailed := by
  simp only [stepOp, htag]
  rw [if_neg (by decide : ¬((3072 : Nat) = 0)), if_neg (by decide : ¬((3072 : Nat) = 256)),
    if_neg (by decide : ¬((3072 : Nat) = 512)), if_neg (by decide : ¬((3072 : Nat) = 768)),
    if_neg (by decide : ¬((3072 : Nat) = 1024)), if_neg (by decide : ¬((3072 : Nat) = 1282)),
    if_neg (by decide : ¬((3072 : Nat) = 1536)), if_neg (by decide : ¬((3072 : Nat) = 1793)),
    if_neg (by decide : ¬((3072 : Nat) = 2048)), if_neg (by decide : ¬((3072 : Nat) = 2304)),
    if_neg (by decide : ¬((3072 : Nat) = 2560)), if_pos trivial,
    show pos + 4 + 2 = pos + 6 from by omega, show pos + 4 + 4 = pos + 8 from by omega]

lemma and_three_split (f : Nat) : f &&& 3 ≠ 0 ↔ (f &&& 1 ≠ 0 ∨ f &&& 2 ≠ 0) := by
  have h3 : (3 : Nat) = 1 ||| 2 := by decide
  rw [h3, Nat.and_or_distrib_left]
  have h2 : (2 : Nat) = 2 ^ 1 := by norm_num
  have h1 : (1 : Nat) = 2 ^ 0 := by norm_num
  rw [h2, h1, Nat.and_two_pow, Nat.and_two_pow]
  rcases Bool.eq_false_or_eq_true (f.testBit 1) with hb | hb <;>
    rcases Bool.eq_false_or_eq_true (f.testBit 0) with hc | hc <;>
      simp [hb, hc]

/-- C7 counterexample: an init-video opcode whose width-in-blocks and
height-in-blocks fields are both zero is processed successfully — the code
performs no geometry validation — contradicting the claim that it fails with
`BadConfiguration`. -/
theorem c7_initvideo_zero_geometry_counterexample :
    readU16LE videoZeroEx 0 = 8 ∧ readU16BE videoZeroEx 2 = 0x0502 ∧
    readU16LE videoZeroEx 4 = 0 ∧ readU16LE videoZeroEx 6 = 0 ∧
    (stepOp videoZeroEx 0 initState).isOk = true ∧
    stepOp videoZeroEx 0 initState ≠ .error .badConfiguration := by
  refine ⟨by decide, by decide, by decide, by decide, rfl, ?_⟩
  intro h
  have hk : (stepOp videoZeroEx 0 initState).isOk = true := rfl
  rw [h] at hk
  exact Bool.noConfusion hk

/-- C7 as amended: processing InitAudio (0x0300, asserted payload length 8)
fails with `BadConfiguration` exactly when `flags & 3 != 0`, and otherwise
creates the audio stream; processing InitVideo (0x0502, asserted payload
length 8) performs no geometry validation and always succeeds, even when the
width-in-blocks or height-in-blocks field is zero. -/
theorem c7_configuration_errors_amended :
    (∀ src pos st, readU16LE src pos = 8 → readU16BE src (pos + 2) = 0x0300 →
      ((stepOp src pos st = .error .badConfiguration ↔ readU16LE src (pos + 6) &&& 3 ≠ 0) ∧
        (readU16LE src (pos + 6) &&& 3 = 0 →
          stepOp src pos st = .ok ({ st with
              hasAudioStream := true
              audioSampleRate := readU16LE src (pos + 8)
              audioQueued := [] }, pos + 12)))) ∧
    (∀ src pos st, readU16LE src pos = 8 → readU16BE src (pos + 2) = 0x0502 →
      (stepOp src pos st).isOk = true) := by
  constructor
  · intro src pos st hlen htag
    rw [stepOp_case_0300 src pos st htag, if_pos hlen]
    constructor
    · rw [and_three_split]
      by_cases hf : readU16LE src (pos + 6) &&& 1 ≠ 0 ∨ readU16LE src (pos + 6) &&& 2 ≠ 0
      · rw [if_pos hf]
        exact ⟨fun _ => hf, fun _ => rfl⟩
      · rw [if_neg hf]
        exact ⟨fun hcon => absurd hcon (by simp), fun hcon => absurd hcon hf⟩
    · intro hz
      have hf : ¬ (readU16LE src (pos + 6) &&& 1 ≠ 0 ∨ readU16LE src (pos + 6) &&& 2 ≠ 0) := by
        intro hcon
        exact (and_three_split (readU16LE src (pos + 6))).mpr hcon hz
      rw [if_neg hf]
  · intro src pos st hlen htag
    rw [stepOp_case_0502 src pos st htag, if_pos hlen]
    rfl

/-- Concrete instantiation of the hypotheses of
`c7_configuration_errors_amended`: a stereo request is rejected as a bad
configuration. -/
theorem c7_configuration_errors_witness :
    (readU16LE audioStereoEx 0 = 8 ∧ readU16BE audioStereoEx 2 = 0x0300) ∧
    stepOp audioStereoEx 0 initState = .error .badConfiguration :=
  ⟨⟨by decide, by decide⟩,
    (c7_configuration_errors_amended.1 audioStereoEx 0 initState (by decide) (by decide)).1.mpr
      (by decide)⟩

lemma palFold_apply (src : List Nat) (base s : Nat) :
    ∀ c q j, ((List.range c).foldl (palWrite src base s) q) j =
      if 3 * s ≤ j ∧ j < 3 * s + 3 * c then expandChannel (byteAt src (base + (j - 3 * s)))
      else q j := by
  intro c
  induction c with
  | zero =>
    intro q j
    rw [if_neg (by omega)]
    rfl
  | succ c ih =>
    intro q j
    rw [List.range_succ, List.foldl_append, List.foldl_cons, List.foldl_nil]
    simp only [palWrite, writeTriple]
    by_cases h1 : j = 3 * (s + c)
    · rw [if_pos h1, if_pos (by omega)]
      have : j - 3 * s = 3 * c := by omega
      rw [this]
    · rw [if_neg h1]
      by_cases h2 : j = 3 * (s + c) + 1
      · rw [if_pos h2, if_pos (by omega)]
        congr 2
        omega
      · rw [if_neg h2]
        by_cases h3 : j = 3 * (s + c) + 2
        · rw [if_pos h3, if_pos (by omega)]
          congr 2
          omega
        · rw [if_neg h3, ih q j]
          by_cases hin : 3 * s ≤ j ∧ j < 3 * s + 3 * c
          · rw [if_pos hin, if_pos (by omega)]
          · rw [if_neg hin, if_neg (by omega)]

/-- C8: a palette opcode with parameters `palStart`, `palCount` (given its
asserted length bound) succeeds, consuming exactly `4 + 3·palCount` payload
bytes plus one pad byte iff `palCount` is odd — so the following opcode's
framing is intact — latching the dirty-palette flag, writing each of the
`palCount` consecutive entries from `palStart` with every 6-bit channel `c`
expanded to `(c << 2) | c`, and leaving every palette byte outside the written
range unchanged. -/
theorem c8_palette_opcode (src : List Nat) (pos : Nat) (st : DecState)
    (htag : readU16BE src (pos + 2) = 0x0c00)
    (hlen : 3 * readU16LE src (pos + 6) + 2 ≤ readU16LE src pos) :
    stepOp src pos st = .ok ({ st with
        palette := (List.range (readU16LE src (pos + 6))).foldl
          (palWrite src (pos + 8) (readU16LE src (pos + 4))) st.palette
        dirtyPalette := true },
      pos + 8 + 3 * readU16LE src (pos + 6) + readU16LE src (pos + 6) % 2) ∧
    (∀ j, 3 * readU16LE src (pos + 4) ≤ j →
        j < 3 * readU16LE src (pos + 4) + 3 * readU16LE src (pos + 6) →
      ((List.range (readU16LE src (pos + 6))).foldl
          (palWrite src (pos + 8) (readU16LE src (pos + 4))) st.palette) j =
        expandChannel (byteAt src (pos + 8 + (j - 3 * readU16LE src (pos + 4))))) ∧
    (∀ j, j < 3 * readU16LE src (pos + 4) ∨
        3 * readU16LE src (pos + 4) + 3 * readU16LE src (pos + 6) ≤ j →
      ((List.range (readU16LE src (pos + 6))).foldl
          (palWrite src (pos + 8) (readU16LE src (pos + 4))) st.palette) j = st.palette j) := by
  refine ⟨?_, ?_, ?_⟩
  · rw [stepOp_case_0c00 src pos st htag, if_pos hlen]
  · intro j hj1 hj2
    rw [palFold_apply src (pos + 8) (readU16LE src (pos + 4)) (readU16LE src (pos + 6))
      st.palette j, if_pos ⟨hj1, hj2⟩]
  · intro j hj
    rw [palFold_apply src (pos + 8) (readU16LE src (pos + 4)) (readU16LE src (pos + 6))
      st.palette j, if_neg (by omega)]

/-- Concrete instantiation of the hypotheses of `c8_palette_opcode`: one
palette entry with an odd `palCount = 1`, whose pad byte is consumed. -/
theorem c8_palette_opcode_witness :
    (readU16BE palEx 2 = 0x0c00 ∧ 3 * readU16LE palEx 6 + 2 ≤ readU16LE palEx 0) ∧
    stepOp palEx 0 initState = .ok ({ initState with
        palette := (List.range (readU16LE palEx 6)).foldl
          (palWrite palEx 8 (readU16LE palEx 4)) initState.palette
        dirtyPalette := true },
      0 + 8 + 3 * readU16LE palEx 6 + readU16LE palEx 6 % 2) :=
  ⟨⟨by decide, by decide⟩,
    (c8_palette_opcode palEx 0 initState (by decide) (by decide)).1⟩

/-- C9: an opcode whose tag is not in the opcode table fails with
`UnknownOpcode`; and whenever the opcode machine stops with an error, the
returned state and position are exactly those reached after the last
successfully processed opcode (re-running the failing opcode from them
reproduces the error) — so no surface or palette mutation happens after the
last good opcode. -/
theorem c9_unknown_opcode_leaves_state :
    (∀ src pos st, knownTag (readU16BE src (pos + 2)) = false →
      stepOp src pos st = .error .unknownOpcode) ∧
    (∀ fuel src pos st st2 pos2 e, runOps fuel src pos st = (st2, pos2, some e) →
      stepOp src pos2 st2 = .error e) := by
  constructor
  · intro src pos st hk
    simp only [knownTag, Bool.or_eq_false_iff, beq_eq_false_iff_ne, ne_eq] at hk
    obtain ⟨⟨⟨⟨⟨⟨⟨⟨⟨⟨⟨⟨⟨⟨h0, h1⟩, h2⟩, h3⟩, h4⟩, h5⟩, h6⟩, h7⟩, h8⟩, h9⟩, ha⟩, hc⟩, he⟩, hf⟩,
      h10⟩ := hk
    simp only [stepOp]
    rw [if_neg h0, if_neg h1, if_neg h2, if_neg h3, if_neg h4, if_neg h5, if_neg h6,
      if_neg h7, if_neg h8, if_neg h9, if_neg ha, if_neg hc, if_neg he, if_neg hf,
      if_neg h10]
  · intro fuel
    induction fuel with
    | zero =>
      intro src pos st st2 pos2 e h
      simp [runOps] at h
    | succ fuel ih =>
      intro src pos st st2 pos2 e h
      by_cases hd : st.done
      · simp [runOps, if_pos hd] at h
      · rcases hstep : stepOp src pos st with e0 | stp
        · simp only [runOps, if_neg hd, hstep, Prod.mk.injEq, Option.some.injEq] at h
          obtain ⟨h1, h2, h3⟩ := h
          subst h1
          subst h2
          subst h3
          exact hstep
        · obtain ⟨sa, sb⟩ := stp
          simp only [runOps, if_neg hd, hstep] at h
          exact ih src sb sa st2 pos2 e h

/-- Concrete instantiation of the hypotheses of
`c9_unknown_opcode_leaves_state`: after one successful no-op opcode, a tag of
0xBEEF stops the machine in the state reached after that opcode. -/
theorem c9_unknown_opcode_leaves_state_witness :
    runOps 2 unknownTagEx 0 initState = (initState, 4, some MveError.unknownOpcode) ∧
    stepOp unknownTagEx 4 initState = .error .unknownOpcode :=
  ⟨rfl, c9_unknown_opcode_leaves_state.2 2 unknownTagEx 0 initState initState 4
    MveError.unknownOpcode rfl⟩

/-- C10: a silent-audio opcode (0x0900, asserted payload length 6) consumes
exactly its three 16-bit payload fields — the stream position advances by the
4-byte opcode header plus 6 payload bytes — and leaves the decoder state
entirely unchanged: nothing is queued to the audio stream and the surfaces,
palette, dirty-palette flag, frame number, frame rate and buffered maps are
untouched. -/
theorem c10_silent_audio_noop (src : List Nat) (pos : Nat) (st : DecState)
    (hlen : readU16LE src pos = 6) (htag : readU16BE src (pos + 2) = 0x0900) :
    stepOp src pos st = .ok (st, pos + 10) := by
  rw [stepOp_case_0900 src pos st htag, if_pos hlen]

/-- Concrete instantiation of the hypotheses of `c10_silent_audio_noop`. -/
theorem c10_silent_audio_noop_witness :
    (readU16LE silentEx 0 = 6 ∧ readU16BE silentEx 2 = 0x0900) ∧
    stepOp silentEx 0 initState = .ok (initState, 10) :=
  ⟨⟨by decide, by decide⟩, c10_silent_audio_noop silentEx 0 initState (by decide) (by decide)⟩

lemma nsCount_zero (sm : List Nat) : nsCount sm 0 = 0 := rfl

lemma nsCount_succ_skip (sm : List Nat) (k : Nat) (h : skipAt sm k = true) :
    nsCount sm (k + 1) = nsCount sm k := by
  rw [nsCount, nsCount, List.range_succ, List.countP_append]
  simp [List.countP_cons, h]

lemma nsCount_succ_ns (sm : List Nat) (k : Nat) (h : skipAt sm k = false) :
    nsCount sm (k + 1) = nsCount sm k + 1 := by
  rw [nsCount, nsCount, List.range_succ, List.countP_append]
  simp [List.countP_cons, h]

lemma nsCount_mono (sm : List Nat) {a b : Nat} (h : a ≤ b) :
    nsCount sm a ≤ nsCount sm b := by
  induction b, h using Nat.le_induction with
  | base => exact le_refl _
  | succ b hb ih =>
    rcases Bool.eq_false_or_eq_true (skipAt sm b) with hs | hs
    · rw [nsCount_succ_skip sm b hs]; exact ih
    · rw [nsCount_succ_ns sm b hs]; omega

lemma nsCount_last (sm : List Nat) :
    ∀ n c, nsCount sm n = c + 1 → ∃ j, j < n ∧ skipAt sm j = false ∧ nsCount sm j = c := by
  intro n
  induction n with
  | zero => intro c h; rw [nsCount_zero] at h; omega
  | succ n ih =>
    intro c h
    rcases Bool.eq_false_or_eq_true (skipAt sm n) with hs | hs
    · rw [nsCount_succ_skip sm n hs] at h
      obtain ⟨j, hj, hsk, hns⟩ := ih c h
      exact ⟨j, by omega, hsk, hns⟩
    · rw [nsCount_succ_ns sm n hs] at h
      exact ⟨n, by omega, hs, by omega⟩

lemma zc10_zero (sm dm : List Nat) : zc10 sm dm 0 = 0 := rfl

lemma zc10_succ_skip (sm dm : List Nat) (k : Nat) (h : skipAt sm k = true) :
    zc10 sm dm (k + 1) = zc10 sm dm k := by
  rw [zc10, zc10, List.range_succ, List.countP_append]
  simp [List.countP_cons, h]

lemma zc10_succ_zero (sm dm : List Nat) (k : Nat) (h1 : skipAt sm k = false)
    (h2 : opAt10 sm dm k = 0) : zc10 sm dm (k + 1) = zc10 sm dm k + 1 := by
  rw [zc10, zc10, List.range_succ, List.countP_append]
  simp [List.countP_cons, h1, h2]

lemma zc10_succ_nonzero (sm dm : List Nat) (k : Nat) (h1 : skipAt sm k = false)
    (h2 : opAt10 sm dm k ≠ 0) : zc10 sm dm (k + 1) = zc10 sm dm k := by
  rw [zc10, zc10, List.range_succ, List.countP_append]
  simp [List.countP_cons, h1, h2]

lemma skipInit (sm : List Nat) : SkipStateOk sm 0 ⟨sm, 0, 0, 0⟩ := by
  refine ⟨rfl, by norm_num, by norm_num, ?_⟩
  intro h
  exact absurd rfl h

lemma skipStateOk_mk (sm : List Nat) (k : Nat) (d : List Nat) (p w b : Nat)
    (hd : d = sm) (hp : p = 2 * ((k + 15) / 16)) (hb : b = 16 * ((k + 15) / 16) - k)
    (hw : b ≠ 0 → w = readU16LE sm (2 * (k / 16)) >>> (k % 16)) :
    SkipStateOk sm k ⟨d, p, w, b⟩ := ⟨hd, hp, hb, hw⟩

lemma skip_step_ok (sm : List Nat) (k : Nat) (s : MveSkipStream) (hinv : SkipStateOk sm k s)
    (hfetch : k % 16 = 0 → 2 * (k / 16) + 2 ≤ sm.length) :
    ∃ s2, s.skip = some (skipAt sm k, s2) ∧ SkipStateOk sm (k + 1) s2 := by
  obtain ⟨hd, hp, hb, hw⟩ := hinv
  rcases Nat.eq_zero_or_pos (k % 16) with hr0 | hrpos
  · have hbz : s.bits = 0 := by omega
    have hpz : s.pos = 2 * (k / 16) := by omega
    have hlen : s.pos + 2 ≤ s.data.length := by rw [hd, hpz]; exact hfetch hr0
    have hskip : s.skip = some (skipAt sm k,
        ⟨s.data, s.pos + 2, readU16LE s.data s.pos >>> 1, 15⟩) := by
      rw [MveSkipStream.skip, if_pos hbz, if_pos hlen]
      have hbit : ((readU16LE s.data s.pos &&& 1) == 0) = skipAt sm k := by
        rw [hd, hpz, skipAt, hr0, Nat.shiftRight_zero]
      rw [hbit]
    refine ⟨_, hskip, skipStateOk_mk sm (k + 1) _ _ _ _ hd (by omega) (by omega) ?_⟩
    intro _
    rw [hd, hpz, show (k + 1) / 16 = k / 16 from by omega,
      show (k + 1) % 16 = 1 from by omega]
  · have hbne : s.bits ≠ 0 := by omega
    have hskip : s.skip = some (skipAt sm k, ⟨s.data, s.pos, s.word >>> 1, s.bits - 1⟩) := by
      rw [MveSkipStream.skip, if_neg hbne]
      have hbit : ((s.word &&& 1) == 0) = skipAt sm k := by
        rw [hw hbne, skipAt]
      rw [hbit]
    refine ⟨_, hskip, skipStateOk_mk sm (k + 1) _ _ _ _ hd (by omega) (by omega) ?_⟩
    intro hne
    rw [hw hbne, show (k + 1) / 16 = k / 16 from by omega,
      show (k + 1) % 16 = k % 16 + 1 from by omega, Nat.shiftRight_add]

lemma skip_step_none (sm : List Nat) (k : Nat) (s : MveSkipStream) (hinv : SkipStateOk sm k s)
    (h1 : k % 16 = 0) (h2 : sm.length < 2 * (k / 16) + 2) : s.skip = none := by
  obtain ⟨hd, hp, hb, _⟩ := hinv
  have hbz : s.bits = 0 := by omega
  have hpz : s.pos = 2 * (k / 16) := by omega
  rw [MveSkipStream.skip, if_pos hbz, if_neg (by rw [hd, hpz]; omega)]

lemma readU16LEOpt_some (l : List Nat) (p : Nat) (h : p + 2 ≤ l.length) :
    readU16LEOpt l p = some (readU16LE l p) := by
  rw [readU16LEOpt, if_pos h]

lemma p10p1_ok (w : Nat) (sm dm lit : List Nat) :
    ∀ m k R0 ss, SkipStateOk sm k ss →
      (∀ j, k ≤ j → j < k + m → p10Cond sm dm j) →
      p10p1 w dm lit (List.range' k m) R0 ss (2 * nsCount sm k) (64 * zc10 sm dm k) =
        .ok ((List.range' k m).foldl (p10Step1 w sm dm lit) R0) := by
  intro m
  induction m with
  | zero => intro k R0 ss hinv hcond; simp [List.range'_zero, p10p1]
  | succ m ih =>
    intro k R0 ss hinv hcond
    rw [List.range'_succ]
    obtain ⟨s2, hskip, hinv2⟩ := skip_step_ok sm k ss hinv
      (fun hr => (hcond k (le_refl k) (by omega)).1 hr)
    have hcond2 : ∀ j, k + 1 ≤ j → j < (k + 1) + m → p10Cond sm dm j := by
      intro j h1 h2
      exact hcond j (by omega) (by omega)
    rcases Bool.eq_false_or_eq_true (skipAt sm k) with hsk | hsk
    · have e1 : p10p1 w dm lit (k :: List.range' (k + 1) m) R0 ss (2 * nsCount sm k)
          (64 * zc10 sm dm k) =
          p10p1 w dm lit (List.range' (k + 1) m) R0 s2 (2 * nsCount sm k)
            (64 * zc10 sm dm k) := by
        simp [p10p1, hskip, hsk]
      rw [e1, show 2 * nsCount sm k = 2 * nsCount sm (k + 1) from by
          rw [nsCount_succ_skip sm k hsk],
        show 64 * zc10 sm dm k = 64 * zc10 sm dm (k + 1) from by
          rw [zc10_succ_skip sm dm k hsk],
        ih (k + 1) R0 s2 hinv2 hcond2, List.foldl_cons,
        show p10Step1 w sm dm lit R0 k = R0 from by
          rw [p10Step1, if_neg (by simp [hsk])]]
    · have hmap : 2 * nsCount sm k + 2 ≤ dm.length :=
        (hcond k (le_refl k) (by omega)).2 hsk
      have hop := readU16LEOpt_some dm (2 * nsCount sm k) hmap
      by_cases hz : readU16LE dm (2 * nsCount sm k) = 0
      · have e1 : p10p1 w dm lit (k :: List.range' (k + 1) m) R0 ss (2 * nsCount sm k)
            (64 * zc10 sm dm k) =
            p10p1 w dm lit (List.range' (k + 1) m)
              (copyBlockLit w R0 lit (64 * zc10 sm dm k) k) s2 (2 * nsCount sm k + 2)
              (64 * zc10 sm dm k + 64) := by
          simp [p10p1, hskip, hsk, hop, hz]
        have hzop : opAt10 sm dm k = 0 := hz
        rw [e1, show 2 * nsCount sm k + 2 = 2 * nsCount sm (k + 1) from by
            rw [nsCount_succ_ns sm k hsk]; ring,
          show 64 * zc10 sm dm k + 64 = 64 * zc10 sm dm (k + 1) from by
            rw [zc10_succ_zero sm dm k hsk hzop]; ring,
          ih (k + 1) _ s2 hinv2 hcond2, List.foldl_cons,
          show p10Step1 w sm dm lit R0 k = copyBlockLit w R0 lit (64 * zc10 sm dm k) k from by
            rw [p10Step1, if_pos ⟨hsk, hzop⟩]]
      · have e1 : p10p1 w dm lit (k :: List.range' (k + 1) m) R0 ss (2 * nsCount sm k)
            (64 * zc10 sm dm k) =
            p10p1 w dm lit (List.range' (k + 1) m) R0 s2 (2 * nsCount sm k + 2)
              (64 * zc10 sm dm k) := by
          simp [p10p1, hskip, hsk, hop, hz]
        have hzop : opAt10 sm dm k ≠ 0 := hz
        rw [e1, show 2 * nsCount sm k + 2 = 2 * nsCount sm (k + 1) from by
            rw [nsCount_succ_ns sm k hsk]; ring,
          show 64 * zc10 sm dm k = 64 * zc10 sm dm (k + 1) from by
            rw [zc10_succ_nonzero sm dm k hsk hzop],
          ih (k + 1) R0 s2 hinv2 hcond2, List.foldl_cons,
          show p10Step1 w sm dm lit R0 k = R0 from by
            rw [p10Step1, if_neg (by simp [hzop])]]

lemma p10p1_err (w : Nat) (sm dm lit : List Nat) :
    ∀ m k R0 ss, SkipStateOk sm k ss →
      ¬ (∀ j, k ≤ j → j < k + m → p10Cond sm dm j) →
      p10p1 w dm lit (List.range' k m) R0 ss (2 * nsCount sm k) (64 * zc10 sm dm k) =
        .error .mapExhausted := by
  intro m
  induction m with
  | zero =>
    intro k R0 ss hinv hcond
    exact absurd (fun j h1 h2 => absurd h2 (by omega)) hcond
  | succ m ih =>
    intro k R0 ss hinv hcond
    rw [List.range'_succ]
    by_cases hck : p10Cond sm dm k
    · obtain ⟨s2, hskip, hinv2⟩ := skip_step_ok sm k ss hinv hck.1
      have hcond2 : ¬ ∀ j, k + 1 ≤ j → j < (k + 1) + m → p10Cond sm dm j := by
        intro hall
        refine hcond (fun j h1 h2 => ?_)
        rcases Nat.eq_or_lt_of_le h1 with hEq | hlt
        · exact hEq ▸ hck
        · exact hall j (by omega) (by omega)
      rcases Bool.eq_false_or_eq_true (skipAt sm k) with hsk | hsk
      · have e1 : p10p1 w dm lit (k :: List.range' (k + 1) m) R0 ss (2 * nsCount sm k)
            (64 * zc10 sm dm k) =
            p10p1 w dm lit (List.range' (k + 1) m) R0 s2 (2 * nsCount sm k)
              (64 * zc10 sm dm k) := by
          simp [p10p1, hskip, hsk]
        rw [e1, show 2 * nsCount sm k = 2 * nsCount sm (k + 1) from by
            rw [nsCount_succ_skip sm k hsk],
          show 64 * zc10 sm dm k = 64 * zc10 sm dm (k + 1) from by
            rw [zc10_succ_skip sm dm k hsk],
          ih (k + 1) R0 s2 hinv2 hcond2]
      · have hmap : 2 * nsCount sm k + 2 ≤ dm.length := hck.2 hsk
        have hop := readU16LEOpt_some dm (2 * nsCount sm k) hmap
        by_cases hz : readU16LE dm (2 * nsCount sm k) = 0
        · have e1 : p10p1 w dm lit (k :: List.range' (k + 1) m) R0 ss (2 * nsCount sm k)
              (64 * zc10 sm dm k) =
              p10p1 w dm lit (List.range' (k + 1) m)
                (copyBlockLit w R0 lit (64 * zc10 sm dm k) k) s2 (2 * nsCount sm k + 2)
                (64 * zc10 sm dm k + 64) := by
            simp [p10p1, hskip, hsk, hop, hz]
          have hzop : opAt10 sm dm k = 0 := hz
          rw [e1, show 2 * nsCount sm k + 2 = 2 * nsCount sm (k + 1) from by
              rw [nsCount_succ_ns sm k hsk]; ring,
            show 64 * zc10 sm dm k + 64 = 64 * zc10 sm dm (k + 1) from by
              rw [zc10_succ_zero sm dm k hsk hzop]; ring,
            ih (k + 1) _ s2 hinv2 hcond2]
        · have e1 : p10p1 w dm lit (k :: List.range' (k + 1) m) R0 ss (2 * nsCount sm k)
              (64 * zc10 sm dm k) =
              p10p1 w dm lit (List.range' (k + 1) m) R0 s2 (2 * nsCount sm k + 2)
                (64 * zc10 sm dm k) := by
            simp [p10p1, hskip, hsk, hop, hz]
          have hzop : opAt10 sm dm k ≠ 0 := hz
          rw [e1, show 2 * nsCount sm k + 2 = 2 * nsCount sm (k + 1) from by
              rw [nsCount_succ_ns sm k hsk]; ring,
            show 64 * zc10 sm dm k = 64 * zc10 sm dm (k + 1) from by
              rw [zc10_succ_nonzero sm dm k hsk hzop],
            ih (k + 1) R0 s2 hinv2 hcond2]
    · by_cases hA : p10SkipCond sm k
      · have hB : ¬ (skipAt sm k = false → 2 * nsCount sm k + 2 ≤ dm.length) :=
          fun hB => hck ⟨hA, hB⟩
        push_neg at hB
        obtain ⟨hsk, hlen⟩ := hB
        obtain ⟨s2, hskip, hinv2⟩ := skip_step_ok sm k ss hinv hA
        have hopn : readU16LEOpt dm (2 * nsCount sm k) = none := by
          rw [readU16LEOpt, if_neg (by omega)]
        simp [p10p1, hskip, hsk, hopn]
      · rw [p10SkipCond] at hA
        push_neg at hA
        obtain ⟨hr0, hlen⟩ := hA
        have hnone := skip_step_none sm k ss hinv hr0 (by omega)
        simp [p10p1, hnone]

lemma p10p2_ok (w : Nat) (sm dm : List Nat) (R1 : Surface) :
    ∀ m k R0 ss, SkipStateOk sm k ss →
      (∀ j, k ≤ j → j < k + m → p10Cond sm dm j) →
      p10p2 w dm R1 (List.range' k m) R0 ss (2 * nsCount sm k) =
        .ok ((List.range' k m).foldl (p10Step2 w sm dm R1) R0) := by
  intro m
  induction m with
  | zero => intro k R0 ss hinv hcond; simp [List.range'_zero, p10p2]
  | succ m ih =>
    intro k R0 ss hinv hcond
    rw [List.range'_succ]
    obtain ⟨s2, hskip, hinv2⟩ := skip_step_ok sm k ss hinv
      (fun hr => (hcond k (le_refl k) (by omega)).1 hr)
    have hcond2 : ∀ j, k + 1 ≤ j → j < (k + 1) + m → p10Cond sm dm j := by
      intro j h1 h2
      exact hcond j (by omega) (by omega)
    rcases Bool.eq_false_or_eq_true (skipAt sm k) with hsk | hsk
    · have e1 : p10p2 w dm R1 (k :: List.range' (k + 1) m) R0 ss (2 * nsCount sm k) =
          p10p2 w dm R1 (List.range' (k + 1) m) R0 s2 (2 * nsCount sm k) := by
        simp [p10p2, hskip, hsk]
      rw [e1, show 2 * nsCount sm k = 2 * nsCount sm (k + 1) from by
          rw [nsCount_succ_skip sm k hsk],
        ih (k + 1) R0 s2 hinv2 hcond2, List.foldl_cons,
        show p10Step2 w sm dm R1 R0 k = R0 from by
          rw [p10Step2, if_neg (by simp [hsk])]]
    · have hmap : 2 * nsCount sm k + 2 ≤ dm.length :=
        (hcond k (le_refl k) (by omega)).2 hsk
      have hop := readU16LEOpt_some dm (2 * nsCount sm k) hmap
      have hcount : 2 * nsCount sm k + 2 = 2 * nsCount sm (k + 1) := by
        rw [nsCount_succ_ns sm k hsk]; ring
      by_cases hz : readU16LE dm (2 * nsCount sm k) = 0
      · have e1 : p10p2 w dm R1 (k :: List.range' (k + 1) m) R0 ss (2 * nsCount sm k) =
            p10p2 w dm R1 (List.range' (k + 1) m) R0 s2 (2 * nsCount sm k + 2) := by
          simp [p10p2, hskip, hsk, hop, hz]
        rw [e1, hcount, ih (k + 1) R0 s2 hinv2 hcond2, List.foldl_cons,
          show p10Step2 w sm dm R1 R0 k = R0 from by
            rw [p10Step2, if_neg (by simp [show opAt10 sm dm k = 0 from hz])]]
      · by_cases hmsb : readU16LE dm (2 * nsCount sm k) &&& 0x8000 ≠ 0
        · have e1 : p10p2 w dm R1 (k :: List.range' (k + 1) m) R0 ss (2 * nsCount sm k) =
              p10p2 w dm R1 (List.range' (k + 1) m)
                (copyBlock w R0 R1 k (decodeOffset (readU16LE dm (2 * nsCount sm k)))) s2
                (2 * nsCount sm k + 2) := by
            simp [p10p2, hskip, hsk, hop, hz, hmsb]
          rw [e1, hcount, ih (k + 1) _ s2 hinv2 hcond2, List.foldl_cons,
            show p10Step2 w sm dm R1 R0 k =
                copyBlock w R0 R1 k (decodeOffset (readU16LE dm (2 * nsCount sm k))) from by
              rw [p10Step2, if_pos ⟨hsk, hz⟩,
                if_pos (show opAt10 sm dm k &&& 0x8000 ≠ 0 from hmsb)]
              rfl]
        · have e1 : p10p2 w dm R1 (k :: List.range' (k + 1) m) R0 ss (2 * nsCount sm k) =
              p10p2 w dm R1 (List.range' (k + 1) m)
                (copyBlockSelf w R0 k (decodeOffset (readU16LE dm (2 * nsCount sm k)))) s2
                (2 * nsCount sm k + 2) := by
            simp [p10p2, hskip, hsk, hop, hz, hmsb]
          rw [e1, hcount, ih (k + 1) _ s2 hinv2 hcond2, List.foldl_cons,
            show p10Step2 w sm dm R1 R0 k =
                copyBlockSelf w R0 k (decodeOffset (readU16LE dm (2 * nsCount sm k))) from by
              rw [p10Step2, if_pos ⟨hsk, hz⟩,
                if_neg (show ¬ opAt10 sm dm k &&& 0x8000 ≠ 0 from hmsb)]
              rfl]

lemma p10p3_ok (w : Nat) (sm : List Nat) (R0f : Surface) :
    ∀ m k F ss, SkipStateOk sm k ss →
      (∀ j, k ≤ j → j < k + m → p10SkipCond sm j) →
      p10p3 w R0f (List.range' k m) F ss =
        .ok ((List.range' k m).foldl (p10Step3 w sm R0f) F) := by
  intro m
  induction m with
  | zero => intro k F ss hinv hcond; simp [List.range'_zero, p10p3]
  | succ m ih =>
    intro k F ss hinv hcond
    rw [List.range'_succ]
    obtain ⟨s2, hskip, hinv2⟩ := skip_step_ok sm k ss hinv
      (fun hr => hcond k (le_refl k) (by omega) hr)
    have hcond2 : ∀ j, k + 1 ≤ j → j < (k + 1) + m → p10SkipCond sm j := by
      intro j h1 h2
      exact hcond j (by omega) (by omega)
    rcases Bool.eq_false_or_eq_true (skipAt sm k) with hsk | hsk
    · have e1 : p10p3 w R0f (k :: List.range' (k + 1) m) F ss =
          p10p3 w R0f (List.range' (k + 1) m) F s2 := by
        simp [p10p3, hskip, hsk]
      rw [e1, ih (k + 1) F s2 hinv2 hcond2, List.foldl_cons,
        show p10Step3 w sm R0f F k = F from by
          rw [p10Step3, if_neg (by simp [hsk])]]
    · have e1 : p10p3 w R0f (k :: List.range' (k + 1) m) F ss =
          p10p3 w R0f (List.range' (k + 1) m) (copyBlock w F R0f k 0) s2 := by
        simp [p10p3, hskip, hsk]
      rw [e1, ih (k + 1) _ s2 hinv2 hcond2, List.foldl_cons,
        show p10Step3 w sm R0f F k = copyBlock w F R0f k 0 from by
          rw [p10Step3, if_pos hsk]]

lemma skipCond_global (sm : List Nat) (n : Nat) :
    (∀ j, j < n → p10SkipCond sm j) ↔ 2 * ((n + 15) / 16) ≤ sm.length := by
  constructor
  · intro h
    rcases Nat.eq_zero_or_pos n with hn | hn
    · subst hn; omega
    · have hj := h (16 * ((n - 1) / 16)) (by omega) (by omega)
      omega
  · intro h j hj
    rw [p10SkipCond]
    intro hr
    omega

lemma mapCond_global (sm dm : List Nat) (n : Nat) :
    (∀ j, j < n → skipAt sm j = false → 2 * nsCount sm j + 2 ≤ dm.length) ↔
      2 * nsCount sm n ≤ dm.length := by
  constructor
  · intro h
    rcases hns : nsCount sm n with _ | c
    · omega
    · obtain ⟨j, hj, hsk, hcj⟩ := nsCount_last sm n c hns
      have := h j hj hsk
      omega
  · intro h j hj hsk
    have h1 : nsCount sm (j + 1) ≤ nsCount sm n := nsCount_mono sm (by omega)
    have h2 := nsCount_succ_ns sm j hsk
    omega

lemma p10Cond_global (sm dm : List Nat) (n : Nat) :
    (∀ j, j < n → p10Cond sm dm j) ↔
      (2 * ((n + 15) / 16) ≤ sm.length ∧ 2 * nsCount sm n ≤ dm.length) := by
  rw [← skipCond_global sm n, ← mapCond_global sm dm n]
  constructor
  · intro h
    exact ⟨fun j hj => (h j hj).1, fun j hj => (h j hj).2⟩
  · intro hpair j hj
    exact ⟨hpair.1 j hj, hpair.2 j hj⟩

lemma copyBlock_zero_apply (w : Nat) (F R0f : Surface) (b : Nat) (x y : Int) :
    copyBlock w F R0f b 0 x y =
      if blockX w b ≤ x ∧ x < blockX w b + 8 ∧ blockY w b ≤ y ∧ y < blockY w b + 8 then
        R0f x y
      else F x y := by
  simp only [copyBlock]
  by_cases h : blockX w b ≤ x ∧ x < blockX w b + 8 ∧ blockY w b ≤ y ∧ y < blockY w b + 8
  · have hx : blockX w b + (0 : Int).tmod ((8 * w : Nat)) + (x - blockX w b) = x := by
      rw [Int.zero_tmod]; ring
    have hy : blockY w b + (0 : Int).tdiv ((8 * w : Nat)) + (y - blockY w b) = y := by
      rw [Int.zero_tdiv]; ring
    rw [if_pos h, if_pos h, hx, hy]
  · rw [if_neg h, if_neg h]

lemma p10p3_fold_apply (w : Nat) (sm : List Nat) (R0f : Surface) :
    ∀ (bs : List Nat) (F : Surface) (x y : Int),
      ((bs.foldl (p10Step3 w sm R0f) F) x y) =
        if ∃ b ∈ bs, skipAt sm b = false ∧ blockX w b ≤ x ∧ x < blockX w b + 8 ∧
            blockY w b ≤ y ∧ y < blockY w b + 8 then R0f x y
        else F x y := by
  intro bs
  induction bs with
  | nil =>
    intro F x y
    rw [if_neg (by simp)]
    rfl
  | cons b bs ih =>
    intro F x y
    rw [List.foldl_cons, ih]
    by_cases hrest : ∃ b2 ∈ bs, skipAt sm b2 = false ∧ blockX w b2 ≤ x ∧
        x < blockX w b2 + 8 ∧ blockY w b2 ≤ y ∧ y < blockY w b2 + 8
    · obtain ⟨b2, hb2, hrest2⟩ := hrest
      rw [if_pos ⟨b2, hb2, hrest2⟩,
        if_pos ⟨b2, List.mem_cons_of_mem b hb2, hrest2⟩]
    · rw [if_neg hrest, p10Step3]
      by_cases hs : skipAt sm b = false
      · rw [if_pos hs, copyBlock_zero_apply]
        by_cases hreg : blockX w b ≤ x ∧ x < blockX w b + 8 ∧ blockY w b ≤ y ∧
            y < blockY w b + 8
        · rw [if_pos hreg, if_pos ⟨b, List.mem_cons_self b bs, hs, hreg⟩]
        · have hno : ¬ ∃ b2 ∈ b :: bs, skipAt sm b2 = false ∧ blockX w b2 ≤ x ∧
              x < blockX w b2 + 8 ∧ blockY w b2 ≤ y ∧ y < blockY w b2 + 8 := by
            rintro ⟨b2, hmem, hsk2, hreg2⟩
            rcases List.mem_cons.mp hmem with hEq | hmem2
            · subst hEq; exact hreg hreg2
            · exact hrest ⟨b2, hmem2, hsk2, hreg2⟩
          rw [if_neg hreg, if_neg hno]
      · have hno : ¬ ∃ b2 ∈ b :: bs, skipAt sm b2 = false ∧ blockX w b2 ≤ x ∧
            x < blockX w b2 + 8 ∧ blockY w b2 ≤ y ∧ y < blockY w b2 + 8 := by
          rintro ⟨b2, hmem, hsk2, hreg2⟩
          rcases List.mem_cons.mp hmem with hEq | hmem2
          · subst hEq; exact hs hsk2
          · exact hrest ⟨b2, hmem2, hsk2, hreg2⟩
        rw [if_neg hs, if_neg hno]

lemma region_imp_blockAt (w h2 : Nat) (b : Nat) (x y : Int) (hb : b < w * h2)
    (hreg : blockX w b ≤ x ∧ x < blockX w b + 8 ∧ blockY w b ≤ y ∧ y < blockY w b + 8) :
    (0 ≤ x ∧ x < ((8 * w : Nat) : Int) ∧ 0 ≤ y ∧ y < ((8 * h2 : Nat) : Int)) ∧
      b = blockAt w x y := by
  have hw : 0 < w := by
    rcases Nat.eq_zero_or_pos w with h0 | h
    · subst h0; simp at hb
    · exact h
  obtain ⟨h1, h2r, h3, h4⟩ := hreg
  rw [blockX] at h1 h2r
  rw [blockY] at h3 h4
  have hmod : b % w < w := Nat.mod_lt b hw
  have hdiv : b / w < h2 := by
    have hb2 : b < h2 * w := by
      rw [Nat.mul_comm h2 w]; exact hb
    exact Nat.div_lt_iff_lt_mul hw |>.mpr hb2
  have hbeq : w * (b / w) + b % w = b := Nat.div_add_mod b w
  obtain ⟨r, hr⟩ : ∃ r, b % w = r := ⟨_, rfl⟩
  obtain ⟨a, ha⟩ : ∃ a, b / w = a := ⟨_, rfl⟩
  rw [hr] at h1 h2r hmod
  rw [ha] at h3 h4 hdiv
  rw [hr, ha] at hbeq
  have hxn : x.toNat / 8 = r := by omega
  have hyn : y.toNat / 8 = a := by omega
  refine ⟨⟨by omega, by omega, by omega, by omega⟩, ?_⟩
  rw [blockAt, hxn, hyn, Nat.mul_comm a w]
  omega

lemma blockAt_region (w h2 : Nat) (x y : Int)
    (hx0 : 0 ≤ x) (hx : x < ((8 * w : Nat) : Int)) (hy0 : 0 ≤ y)
    (hy : y < ((8 * h2 : Nat) : Int)) :
    blockAt w x y < w * h2 ∧
      (blockX w (blockAt w x y) ≤ x ∧ x < blockX w (blockAt w x y) + 8 ∧
       blockY w (blockAt w x y) ≤ y ∧ y < blockY w (blockAt w x y) + 8) := by
  have hw : 0 < w := by omega
  have hp : x.toNat < 8 * w := by omega
  have hq : y.toNat < 8 * h2 := by omega
  have hp8 : x.toNat / 8 < w := by omega
  have hq8 : y.toNat / 8 < h2 := by omega
  have hmod : blockAt w x y % w = x.toNat / 8 := by
    rw [blockAt, Nat.add_comm, Nat.add_mul_mod_self_right]
    exact Nat.mod_eq_of_lt hp8
  have hdiv : blockAt w x y / w = y.toNat / 8 := by
    rw [blockAt, Nat.add_comm, Nat.add_mul_div_right _ _ hw, Nat.div_eq_of_lt hp8]
    omega
  constructor
  · rw [blockAt]
    calc y.toNat / 8 * w + x.toNat / 8 < y.toNat / 8 * w + w := by omega
    _ = (y.toNat / 8 + 1) * w := by ring
    _ ≤ h2 * w := Nat.mul_le_mul_right w (by omega)
    _ = w * h2 := Nat.mul_comm h2 w
  · rw [blockX, blockY, hmod, hdiv]
    omega

lemma p10p3_pointwise (w h2 : Nat) (sm : List Nat) (R0f F : Surface) :
    (List.range (w * h2)).foldl (p10Step3 w sm R0f) F = fun x y =>
      if 0 ≤ x ∧ x < ((8 * w : Nat) : Int) ∧ 0 ≤ y ∧ y < ((8 * h2 : Nat) : Int) ∧
          skipAt sm (blockAt w x y) = false then R0f x y
      else F x y := by
  funext x y
  rw [p10p3_fold_apply]
  by_cases hin : 0 ≤ x ∧ x < ((8 * w : Nat) : Int) ∧ 0 ≤ y ∧ y < ((8 * h2 : Nat) : Int)
  · obtain ⟨hx0, hx, hy0, hy⟩ := hin
    obtain ⟨hlt, hreg⟩ := blockAt_region w h2 x y hx0 hx hy0 hy
    by_cases hsk : skipAt sm (blockAt w x y) = false
    · rw [if_pos ⟨blockAt w x y, by rw [List.mem_range]; exact hlt, hsk, hreg⟩,
        if_pos ⟨hx0, hx, hy0, hy, hsk⟩]
    · have hno : ¬ ∃ b ∈ List.range (w * h2), skipAt sm b = false ∧ blockX w b ≤ x ∧
          x < blockX w b + 8 ∧ blockY w b ≤ y ∧ y < blockY w b + 8 := by
        rintro ⟨b, hmem, hskb, hregb⟩
        have hba := region_imp_blockAt w h2 b x y (List.mem_range.mp hmem) hregb
        exact hsk (hba.2 ▸ hskb)
      rw [if_neg hno, if_neg (by rintro ⟨_, _, _, _, hc⟩; exact hsk hc)]
  · have hno : ¬ ∃ b ∈ List.range (w * h2), skipAt sm b = false ∧ blockX w b ≤ x ∧
        x < blockX w b + 8 ∧ blockY w b ≤ y ∧ y < blockY w b + 8 := by
      rintro ⟨b, hmem, hskb, hregb⟩
      exact hin (region_imp_blockAt w h2 b x y (List.mem_range.mp hmem) hregb).1
    rw [if_neg hno, if_neg (by rintro ⟨hc1, hc2, hc3, hc4, _⟩; exact hin ⟨hc1, hc2, hc3, hc4⟩)]

lemma decodeFormat10_eq_spec (w h : Nat) (sm dm frameData : List Nat) (st : St) :
    decodeFormat10 w h sm dm frameData st = decodeFormat10Spec w h sm dm frameData st := by
  by_cases hglob : 2 * ((w * h + 15) / 16) ≤ sm.length ∧
      2 * nsCount sm (w * h) ≤ dm.length
  · have hcondall : ∀ j, j < w * h → p10Cond sm dm j :=
      (p10Cond_global sm dm (w * h)).mpr hglob
    have h1 := p10p1_ok w sm dm (frameData.drop 14) (w * h) 0 st.R0 ⟨sm, 0, 0, 0⟩
      (skipInit sm) (fun j h0 hj => hcondall j (by omega))
    have h2 := p10p2_ok w sm dm st.R1 (w * h) 0
      ((List.range' 0 (w * h)).foldl (p10Step1 w sm dm (frameData.drop 14)) st.R0)
      ⟨sm, 0, 0, 0⟩ (skipInit sm) (fun j h0 hj => hcondall j (by omega))
    have h3 := p10p3_ok w sm
      ((List.range' 0 (w * h)).foldl (p10Step2 w sm dm st.R1)
        ((List.range' 0 (w * h)).foldl (p10Step1 w sm dm (frameData.drop 14)) st.R0))
      (w * h) 0 st.F ⟨sm, 0, 0, 0⟩ (skipInit sm)
      (fun j h0 hj => (hcondall j (by omega)).1)
    simp only [nsCount_zero, zc10_zero, Nat.mul_zero] at h1 h2 h3
    have hpw := p10p3_pointwise w h sm
      ((List.range' 0 (w * h)).foldl (p10Step2 w sm dm st.R1)
        ((List.range' 0 (w * h)).foldl (p10Step1 w sm dm (frameData.drop 14)) st.R0)) st.F
    rw [List.range_eq_range'] at hpw
    simp only [decodeFormat10, decodeFormat10Spec, List.range_eq_range', h1, h2, h3,
      if_pos hglob, hpw]
  · have hnall : ¬ ∀ j, j < w * h → p10Cond sm dm j :=
      fun hall => hglob ((p10Cond_global sm dm (w * h)).mp hall)
    have h1 := p10p1_err w sm dm (frameData.drop 14) (w * h) 0 st.R0 ⟨sm, 0, 0, 0⟩
      (skipInit sm)
      (fun hall => hnall (fun j hj => hall j (by omega) (by omega)))
    simp only [nsCount_zero, zc10_zero, Nat.mul_zero] at h1
    simp only [decodeFormat10, decodeFormat10Spec, List.range_eq_range', h1, if_neg hglob]

/-- C2: format-10 decode equals its specification: three row-major passes —
pass 1 copies a literal block into `R0` for each non-skipped block whose map
word is zero; pass 2, re-reading the skip bits and map words from the start,
copies each non-skipped nonzero-word block into `R0` from `R1` when bit 15 is
set, else from `R0` itself, at offset `(op & 0x7FFF) - 0x4000`; pass 3 copies
every non-skipped block of `R0` into `F`, leaving every skipped pixel of `F`
with its prior contents; finally `R0` and `R1` are swapped.  The skip and map
streams fail with `MapExhausted` when their word supply is insufficient. -/
theorem c2_format10_decode_matches_spec (w h : Nat) (sm dm frameData : List Nat) (st : St) :
    decodeFormat10 w h sm dm frameData st = decodeFormat10Spec w h sm dm frameData st :=
  decodeFormat10_eq_spec w h sm dm frameData st

/-- C6: a format-10 decode fails with `MapExhausted` exactly when the skip
map's 16-bit word supply is insufficient for the block count, or the decoding
map supplies fewer 16-bit words than the number of non-skipped blocks
requires; otherwise it succeeds (no substitute opcode values are decoded). -/
theorem c6_format10_map_exhaustion (w h : Nat) (sm dm frameData : List Nat) (st : St) :
    (decodeFormat10 w h sm dm frameData st = .error .mapExhausted ↔
      (sm.length < 2 * ((w * h + 15) / 16) ∨ dm.length < 2 * nsCount sm (w * h))) ∧
    (¬ (sm.length < 2 * ((w * h + 15) / 16) ∨ dm.length < 2 * nsCount sm (w * h)) →
      ∃ st2, decodeFormat10 w h sm dm frameData st = .ok st2) := by
  rw [decodeFormat10_eq_spec w h sm dm frameData st]
  by_cases hglob : 2 * ((w * h + 15) / 16) ≤ sm.length ∧
      2 * nsCount sm (w * h) ≤ dm.length
  · constructor
    · simp only [decodeFormat10Spec, if_pos hglob]
      constructor
      · intro hcon
        exact absurd hcon (by simp)
      · intro hcon
        omega
    · intro _
      simp only [decodeFormat10Spec, if_pos hglob]
      exact ⟨_, rfl⟩
  · constructor
    · simp only [decodeFormat10Spec, if_neg hglob]
      constructor
      · intro _
        omega
      · intro _
        trivial
    · intro hcon
      exact absurd hcon (by omega)

/-- Concrete instantiation of the hypotheses of
`c6_format10_map_exhaustion`: with a one-word skip map marking the single
block as not skipped and a one-word decoding map, the decode succeeds. -/
theorem c6_format10_map_exhaustion_witness :
    (¬ (smEx.length < 2 * ((1 * 1 + 15) / 16) ∨ dmEx.length < 2 * nsCount smEx (1 * 1))) ∧
    ∃ st2, decodeFormat10 1 1 smEx dmEx [] stEx = .ok st2 :=
  ⟨by decide, (c6_format10_map_exhaustion 1 1 smEx dmEx [] stEx).2 (by decide)⟩

end MveDec
